import Mathlib

/-!
Shallow embedding of the Medico24 backend (appointments, notifications,
push tokens, cache layer, nearby search, and the user-role database
triggers), together with proofs of the behavioural properties stated in
the specification.  Each definition is translated from the corresponding
Python service function or SQL trigger function of the repository.
-/

namespace Medico24

/-! ### Cache layer (`app/core/redis_client.py`, class `CacheManager`)

Each underlying Redis client call is modelled by its outcome, an
`Except String α` value: `.ok` is the value the call returns, `.error`
is a raised exception (carrying the exception text).  The `CacheManager`
methods wrap every call in `try/except` and return a neutral value when
the call raises. -/

namespace Cache

/-- Truthiness of the optional `ttl : int | None` argument (`if ttl:` in
Python is false for both `None` and `0`). -/
def ttlTruthy : Option Nat → Bool
  | none => false
  | some t => t != 0

/-- `CacheManager.get`: return the Redis `get` result, `None` on error. -/
def cacheGet (r : Except String (Option String)) : Option String :=
  match r with
  | .ok v => v
  | .error _ => none

/-- `CacheManager.set`: uses `setex` when a (truthy) ttl is given, plain
`set` otherwise; returns `True` on success and `False` when the call
raises. -/
def cacheSet (ttl : Option Nat) (setexR setR : Except String Unit) : Bool :=
  if ttlTruthy ttl then
    match setexR with
    | .ok _ => true
    | .error _ => false
  else
    match setR with
    | .ok _ => true
    | .error _ => false

/-- `CacheManager.delete`: returns `True` unless the Redis call raises. -/
def cacheDelete (r : Except String Nat) : Bool :=
  match r with
  | .ok _ => true
  | .error _ => false

/-- `CacheManager.exists`: `bool(self.redis.exists(key))`, `False` on
error.  (Named `cacheExists` because `exists` is a Lean keyword.) -/
def cacheExists (r : Except String Nat) : Bool :=
  match r with
  | .ok n => n != 0
  | .error _ => false

/-- `CacheManager.get_json`: fetch the raw string, return `None` when the
fetch raises, the value is absent or falsy (the empty string), or JSON
decoding (`loads`) raises; otherwise the decoded value.  The JSON decoder
is abstracted as a fallible function into an arbitrary value type. -/
def cacheGetJson {V : Type} (r : Except String (Option String))
    (loads : String → Except String V) : Option V :=
  match r with
  | .error _ => none
  | .ok none => none
  | .ok (some s) =>
      if s = "" then none
      else
        match loads s with
        | .ok v => some v
        | .error _ => none

/-- `CacheManager.set_json`: serialize (`dumps`, fallible), then the same
`setex`/`set` branch as `cacheSet`; `False` when anything raises. -/
def cacheSetJson (dumps : Except String String) (ttl : Option Nat)
    (setexR setR : Except String Unit) : Bool :=
  match dumps with
  | .error _ => false
  | .ok _ =>
      if ttlTruthy ttl then
        match setexR with
        | .ok _ => true
        | .error _ => false
      else
        match setR with
        | .ok _ => true
        | .error _ => false

/-- `CacheManager.delete_pattern`: list the matching keys and delete them,
returning the number deleted; `0` when there are no matching keys or when
either Redis call raises. -/
def cacheDeletePattern (keysR : Except String (List String))
    (delR : Except String Nat) : Nat :=
  match keysR with
  | .error _ => 0
  | .ok keys =>
      if keys.isEmpty then 0
      else
        match delR with
        | .ok n => n
        | .error _ => 0

end Cache

/-! ### Appointment service (`app/services/appointment_service.py`)

The `appointments` table is a list of rows; ids and timestamps are
natural numbers, nullable columns are `Option`-typed.  Exceptions raised
by the service (`NotFoundException`, `ForbiddenException`) become an
`ApptError`; as in the service, an exception propagates before any SQL
write is executed, so the error branches return the table unchanged. -/

namespace Appt

/-- A row of the `appointments` table (the columns the service touches). -/
structure Appointment where
  id : Nat
  patient_id : Nat
  doctor_id : Option Nat
  clinic_id : Option Nat
  doctor_name : String
  clinic_name : Option String
  appointment_at : Nat
  appointment_end_at : Option Nat
  reason : String
  contact_phone : String
  notes : Option String
  source : String
  status : String
  cancelled_at : Option Nat
  deleted_at : Option Nat
  updated_at : Nat
  deriving DecidableEq, Repr

/-- `AppointmentCreate` payload (status is not a field of the payload). -/
structure AppointmentCreate where
  doctor_id : Option Nat
  clinic_id : Option Nat
  doctor_name : String
  clinic_name : Option String
  appointment_at : Nat
  appointment_end_at : Option Nat
  reason : String
  contact_phone : String
  notes : Option String
  source : String
  deriving DecidableEq, Repr

/-- `AppointmentUpdate` payload: every field optional; `None` fields are
skipped by the service's `exclude_unset`/`is not None` loop. -/
structure AppointmentUpdate where
  doctor_name : Option String
  clinic_name : Option String
  doctor_id : Option Nat
  clinic_id : Option Nat
  appointment_at : Option Nat
  appointment_end_at : Option Nat
  reason : Option String
  contact_phone : Option String
  status : Option String
  notes : Option String
  deriving DecidableEq, Repr

/-- Domain errors raised by the service. -/
inductive ApptError
  | notFound
  | forbidden
  deriving DecidableEq, Repr

/-- The lookup both `get_appointment` and the access checks perform:
`SELECT * FROM appointments WHERE id = :id AND deleted_at IS NULL`,
taking the first row. -/
def findActive (db : List Appointment) (aid : Nat) : Option Appointment :=
  db.find? (fun a => a.id == aid && a.deleted_at.isNone)

/-- `AppointmentService.create_appointment`: insert a row with
`status = AppointmentStatus.SCHEDULED.value`; returns the new table and
the inserted row. -/
def create_appointment (db : List Appointment) (aid patient_id now : Nat)
    (data : AppointmentCreate) : List Appointment × Appointment :=
  let row : Appointment :=
    { id := aid
      patient_id := patient_id
      doctor_id := data.doctor_id
      clinic_id := data.clinic_id
      doctor_name := data.doctor_name
      clinic_name := data.clinic_name
      appointment_at := data.appointment_at
      appointment_end_at := data.appointment_end_at
      reason := data.reason
      contact_phone := data.contact_phone
      notes := data.notes
      source := data.source
      status := "scheduled"
      cancelled_at := none
      deleted_at := none
      updated_at := now }
  (db ++ [row], row)

/-- `AppointmentService.get_appointment`: not-found when no non-deleted
row has the id, forbidden when the row's `patient_id` differs from the
requesting user. -/
def get_appointment (db : List Appointment) (aid user_id : Nat) :
    Except ApptError Appointment :=
  match findActive db aid with
  | none => .error .notFound
  | some row =>
      if row.patient_id ≠ user_id then .error .forbidden
      else .ok row

/-- The per-field merge the `update_appointment` loop performs: a `some`
payload field overwrites the column, a `none` field is skipped, and
`updated_at` is stamped. -/
def applyUpdate (u : AppointmentUpdate) (now : Nat) (a : Appointment) :
    Appointment :=
  { a with
    doctor_name := u.doctor_name.getD a.doctor_name
    clinic_name := (u.clinic_name.map some).getD a.clinic_name
    doctor_id := (u.doctor_id.map some).getD a.doctor_id
    clinic_id := (u.clinic_id.map some).getD a.clinic_id
    appointment_at := u.appointment_at.getD a.appointment_at
    appointment_end_at := (u.appointment_end_at.map some).getD a.appointment_end_at
    reason := u.reason.getD a.reason
    contact_phone := u.contact_phone.getD a.contact_phone
    status := u.status.getD a.status
    notes := (u.notes.map some).getD a.notes
    updated_at := now }

/-- Whether any payload field is set (otherwise the service returns the
current state without issuing an UPDATE). -/
def hasChanges (u : AppointmentUpdate) : Bool :=
  u.doctor_name.isSome || u.clinic_name.isSome || u.doctor_id.isSome ||
  u.clinic_id.isSome || u.appointment_at.isSome ||
  u.appointment_end_at.isSome || u.reason.isSome ||
  u.contact_phone.isSome || u.status.isSome || u.notes.isSome

/-- `AppointmentService.update_appointment`: access check via
`get_appointment`, then `UPDATE ... WHERE id = :id` with the set fields.
Returns the (possibly unchanged) table and the outcome. -/
def update_appointment (db : List Appointment) (aid user_id now : Nat)
    (u : AppointmentUpdate) : List Appointment × Except ApptError Appointment :=
  match get_appointment db aid user_id with
  | .error e => (db, .error e)
  | .ok row =>
      if ¬ hasChanges u then (db, .ok row)
      else
        (db.map (fun a => if a.id = aid then applyUpdate u now a else a),
          .ok (applyUpdate u now row))

/-- `AppointmentService.update_appointment_status`: access check, then an
UPDATE setting `status` and `updated_at`, plus `notes` when the payload
carries a truthy notes string, plus `cancelled_at` when the new status is
`cancelled`. -/
def update_appointment_status (db : List Appointment) (aid user_id : Nat)
    (status : String) (notes : Option String) (now : Nat) :
    List Appointment × Except ApptError Appointment :=
  match get_appointment db aid user_id with
  | .error e => (db, .error e)
  | .ok row =>
      let upd : Appointment → Appointment := fun a =>
        { a with
          status := status
          updated_at := now
          notes := match notes with
            | some s => if s ≠ "" then some s else a.notes
            | none => a.notes
          cancelled_at := if status = "cancelled" then some now else a.cancelled_at }
      (db.map (fun a => if a.id = aid then upd a else a), .ok (upd row))

/-- `AppointmentService.delete_appointment`: access check, then either a
hard `DELETE WHERE id = :id` or a soft delete stamping `deleted_at`. -/
def delete_appointment (db : List Appointment) (aid user_id : Nat)
    (hard : Bool) (now : Nat) : List Appointment × Except ApptError Unit :=
  match get_appointment db aid user_id with
  | .error e => (db, .error e)
  | .ok _ =>
      if hard then (db.filter (fun a => a.id != aid), .ok ())
      else
        (db.map (fun a =>
          if a.id = aid then { a with deleted_at := some now, updated_at := now }
          else a), .ok ())

/-- `AppointmentFilters`: optional filters plus pagination. -/
structure AppointmentFilters where
  status : Option String
  doctor_id : Option Nat
  clinic_id : Option Nat
  from_date : Option Nat
  to_date : Option Nat
  page : Nat
  page_size : Nat
  deriving DecidableEq, Repr

/-- The WHERE conditions `list_appointments` builds: owning patient,
not soft-deleted, and the optional filters. -/
def listCond (user_id : Nat) (f : AppointmentFilters) (a : Appointment) : Bool :=
  a.patient_id == user_id && a.deleted_at.isNone &&
  (match f.status with | some s => a.status == s | none => true) &&
  (match f.doctor_id with | some d => a.doctor_id == some d | none => true) &&
  (match f.clinic_id with | some c => a.clinic_id == some c | none => true) &&
  (match f.from_date with | some t => t ≤ a.appointment_at | none => true) &&
  (match f.to_date with | some t => a.appointment_at ≤ t | none => true)

/-- The paginated list response. -/
structure AppointmentListResponse where
  total : Nat
  page : Nat
  page_size : Nat
  items : List Appointment
  deriving DecidableEq, Repr

/-- `AppointmentService.list_appointments`: count the matching rows, then
select them ordered by `appointment_at DESC` with limit/offset. -/
def list_appointments (db : List Appointment) (user_id : Nat)
    (f : AppointmentFilters) : AppointmentListResponse :=
  let matched := db.filter (listCond user_id f)
  let sorted := matched.insertionSort (fun a b => b.appointment_at ≤ a.appointment_at)
  { total := matched.length
    page := f.page
    page_size := f.page_size
    items := (sorted.drop ((f.page - 1) * f.page_size)).take f.page_size }

end Appt

/-! ### Notification service (`app/services/notification_service.py`)

`notifications`, `notification_deliveries` and `push_tokens` are lists of
rows.  The FCM batch call (`messaging.send_each_for_multicast`) is
modelled by its outcome: either an exception (`.error` with the exception
text) or the provider's per-token results (`.ok` with one Boolean per
token).  A possible exception raised by the database statements that
follow the send inside `send_to_user`'s `try` block is modelled by an
`Option String` (the exception text), since that is the only other source
of exceptions inside the `try`. -/

namespace Notif

/-- A row of the `notifications` table (the columns the service touches). -/
structure Notification where
  id : Nat
  user_id : Nat
  title : String
  body : String
  notification_type : String
  priority : String
  data : Option String
  status : String
  failure_reason : Option String
  sent_at : Option Nat
  delivered_at : Option Nat
  read_at : Option Nat
  updated_at : Nat
  deriving DecidableEq, Repr

/-- A row of the `notification_deliveries` table. -/
structure Delivery where
  notification_id : Nat
  push_token_id : Nat
  delivery_status : String
  failure_reason : Option String
  delivered_at : Option Nat
  deriving DecidableEq, Repr

/-- A row of the `push_tokens` table. -/
structure PushToken where
  id : Nat
  user_id : Nat
  fcm_token : String
  platform : String
  is_active : Bool
  last_used_at : Option Nat
  deriving DecidableEq, Repr

/-- The tables the notification service reads and writes. -/
structure NotifDB where
  notifications : List Notification
  deliveries : List Delivery
  push_tokens : List PushToken
  deriving DecidableEq, Repr

/-- `NotificationService.send_push_notification`: `(0, 0)` for an empty
token list; otherwise the provider's `(success_count, failure_count)`,
except that any exception raised by the FCM call is caught and reported
as `(0, len(tokens))`. -/
def send_push_notification (tokens : List String)
    (fcm : Except String (List Bool)) : Nat × Nat :=
  if tokens.isEmpty then (0, 0)
  else
    match fcm with
    | .ok outcomes => (outcomes.count true, outcomes.count false)
    | .error _ => (0, tokens.length)

/-- `NotificationService.send_to_user`: insert a `pending` notification,
fetch the user's active tokens (failing the notification when there are
none), insert one `pending` delivery row per token, mark the notification
`sent`, call `send_push_notification`, and finish either on the success
path (final status from the counts, all delivery rows set to `sent`) or
in the `except` handler (notification and all delivery rows set to
`failed` with the exception text).  `postError` is the exception, if any,
raised by the database statements inside the `try` block after the send.
The `(user_id, fcm_token)` unique constraint makes the code's
`token_map` dictionary a bijection on the fetched rows, so deliveries are
modelled directly as one row per fetched token record.
Returns the new tables and the `(success_count, failure_count)` pair. -/
def send_to_user (db : NotifDB) (nid user_id : Nat) (title body : String)
    (notification_type priority : String) (payload : Option String) (now : Nat)
    (fcm : Except String (List Bool)) (postError : Option String) :
    NotifDB × Nat × Nat :=
  let inserted : Notification :=
    { id := nid, user_id := user_id, title := title, body := body
      notification_type := notification_type, priority := priority
      data := payload, status := "pending", failure_reason := none
      sent_at := none, delivered_at := none, read_at := none, updated_at := now }
  let db : NotifDB := { db with notifications := db.notifications ++ [inserted] }
  let token_records :=
    db.push_tokens.filter (fun t => t.user_id == user_id && t.is_active)
  if token_records.isEmpty then
    ({ db with notifications := db.notifications.map (fun n =>
        if n.id = nid then
          { n with status := "failed",
                   failure_reason := some "No active tokens for user" }
        else n) }, 0, 0)
  else
    let fcm_tokens := token_records.map (fun t => t.fcm_token)
    let db : NotifDB := { db with deliveries :=
      db.deliveries ++ token_records.map (fun t =>
        ({ notification_id := nid, push_token_id := t.id
           delivery_status := "pending", failure_reason := none
           delivered_at := none } : Delivery)) }
    let db : NotifDB := { db with notifications := db.notifications.map (fun n =>
        if n.id = nid then { n with status := "sent", sent_at := some now }
        else n) }
    match postError with
    | some e =>
        let db : NotifDB := { db with notifications := db.notifications.map (fun n =>
            if n.id = nid then
              { n with status := "failed", failure_reason := some e }
            else n) }
        let db : NotifDB := { db with deliveries := db.deliveries.map (fun d =>
            if d.notification_id = nid then
              { d with delivery_status := "failed", failure_reason := some e }
            else d) }
        (db, 0, fcm_tokens.length)
    | none =>
        let counts := send_push_notification fcm_tokens fcm
        let success_count := counts.1
        let failure_count := counts.2
        let final_status :=
          if failure_count = 0 then "delivered"
          else if success_count = 0 then "failed"
          else "delivered"
        let db : NotifDB := { db with notifications := db.notifications.map (fun n =>
            if n.id = nid then
              { n with status := final_status,
                       delivered_at := if success_count > 0 then some now else none }
            else n) }
        let db : NotifDB := { db with deliveries := db.deliveries.map (fun d =>
            if d.notification_id = nid then
              { d with delivery_status := "sent", delivered_at := some now }
            else d) }
        (db, success_count, failure_count)

/-- The row transformation of `register_token`'s first UPDATE:
`SET is_active = false WHERE user_id = :uid AND platform = :platform AND
fcm_token != :fcm_token`. -/
def deactivateOthers (user_id : Nat) (fcm_token platform : String)
    (t : PushToken) : PushToken :=
  if t.user_id = user_id ∧ t.platform = platform ∧ t.fcm_token ≠ fcm_token
  then { t with is_active := false } else t

/-- The row transformation of `register_token`'s second UPDATE:
`SET is_active = true, last_used_at = now, platform = :platform
WHERE id = :existing_id`. -/
def reactivateExisting (existingId : Nat) (platform : String) (now : Nat)
    (t : PushToken) : PushToken :=
  if t.id = existingId then
    { t with is_active := true, last_used_at := some now, platform := platform }
  else t

/-- `NotificationService.register_token`: deactivate the user's other
tokens on the same platform, then either reactivate/update the existing
row with the same `(user_id, fcm_token)` or insert a new active row.
(The service also re-reads and returns the registered row; the returned
table state is what the claims concern.) -/
def register_token (tokens : List PushToken) (freshId user_id : Nat)
    (fcm_token platform : String) (now : Nat) : List PushToken :=
  let tokens := tokens.map (deactivateOthers user_id fcm_token platform)
  match tokens.find? (fun t => t.user_id == user_id && t.fcm_token == fcm_token) with
  | some existing =>
      tokens.map (reactivateExisting existing.id platform now)
  | none =>
      tokens ++ [{ id := freshId, user_id := user_id, fcm_token := fcm_token
                   platform := platform, is_active := true
                   last_used_at := some now }]

/-- `NotificationService.mark_notification_as_read`: an unconditional
`UPDATE ... WHERE id = :id AND user_id = :uid` setting `read_at`,
`status = 'read'` and `updated_at`; returns `rowcount > 0`. -/
def mark_notification_as_read (db : NotifDB) (nid user_id now : Nat) :
    NotifDB × Bool :=
  let matched :=
    db.notifications.countP (fun n => n.id == nid && n.user_id == user_id)
  ({ db with notifications := db.notifications.map (fun n =>
      if n.id = nid ∧ n.user_id = user_id then
        { n with read_at := some now, status := "read", updated_at := now }
      else n) }, decide (0 < matched))

end Notif

/-! ### Nearby search (`app/services/pharmacy_service.py`,
`app/services/clinic_service.py`)

Both searches run a single SQL query over the candidate rows: filter by
the non-geographic conditions, restrict to rows whose computed distance
is within the requested radius, annotate each row with `distance_km`,
order ascending by that distance, and apply `OFFSET`/`LIMIT`.  The
per-row distance expression (PostGIS `ST_Distance` on the geography
column for pharmacies, the inlined spherical-law-of-cosines expression
for clinics) is a deterministic function of the stored row and the query
point; it is abstracted here as a rational-valued function of the row,
and the non-geographic WHERE conditions as a Boolean predicate. -/

namespace Geo

/-- `PharmacyService.search_pharmacies_nearby`: rows passing the filters
and `ST_DWithin(geo, point, radius_km * 1000)` (the geography distance in
meters is at most `radius_km * 1000`), annotated with
`ST_Distance(...) / 1000 AS distance_km`, `ORDER BY distance_km ASC
LIMIT :limit OFFSET :skip`. -/
def search_pharmacies_nearby {α : Type} (rows : List α) (dist_m : α → ℚ)
    (radius_km : ℚ) (skip lim : Nat) (passes : α → Bool) : List (α × ℚ) :=
  let matched := rows.filter (fun p => passes p && decide (dist_m p ≤ radius_km * 1000))
  let annotated := matched.map (fun p => (p, dist_m p / 1000))
  ((annotated.insertionSort (fun a b => a.2 ≤ b.2)).drop skip).take lim

/-- `ClinicService.search_clinics_nearby`: rows passing the filters,
annotated with the law-of-cosines `distance_km` expression, restricted by
`HAVING distance_km <= radius_km`, ordered ascending by the distance,
with `.offset(skip).limit(limit)`. -/
def search_clinics_nearby {α : Type} (rows : List α) (distance_km : α → ℚ)
    (radius_km : ℚ) (skip lim : Nat) (passes : α → Bool) : List (α × ℚ) :=
  let annotated := (rows.filter passes).map (fun c => (c, distance_km c))
  let within := annotated.filter (fun x => decide (x.2 ≤ radius_km))
  ((within.insertionSort (fun a b => a.2 ≤ b.2)).drop skip).take lim

instance instIsTotalSnd (α : Type) :
    IsTotal (α × ℚ) (fun a b => a.2 ≤ b.2) :=
  ⟨fun a b => le_total a.2 b.2⟩

instance instIsTransSnd (α : Type) :
    IsTrans (α × ℚ) (fun a b => a.2 ≤ b.2) :=
  ⟨fun _ _ _ h1 h2 => le_trans h1 h2⟩

end Geo

/-! ### Role-table triggers
(`alembic/versions/008_add_role_table_triggers.py`)

The `users` table is a list of `(id, role)` pairs (the `role` column is
free text with no check constraint); the four satellite tables hold the
`user_id` values of their rows (`pharmacy_staff` rows also carry the
nullable `pharmacy_id`).  `create_user_role_record` runs AFTER INSERT on
`users` and `handle_user_role_change` AFTER UPDATE OF `role`; an insert
whose primary key already exists fails and rolls the whole transaction
back (modelled as a no-op), and an update whose WHERE clause matches no
row fires no trigger. -/

namespace RoleTrig

/-- The tables involved in the role-record lifecycle. -/
structure DB where
  users : List (Nat × String)
  patients : List Nat
  doctors : List Nat
  pharmacy_staff : List (Nat × Option Nat)
  admins : List Nat
  deriving DecidableEq, Repr

/-- The empty database. -/
def initDB : DB := ⟨[], [], [], [], []⟩

/-- The current `role` value of a user, if the user exists. -/
def roleOf (db : DB) (u : Nat) : Option String :=
  (db.users.find? (fun p => p.1 == u)).map (fun p => p.2)

/-- Trigger function `create_user_role_record` (also the insert half of
`handle_user_role_change`): branch on the role and insert a satellite row
(`pharmacy_staff` rows get `pharmacy_id = NULL`); no branch matches for a
role outside the four known values. -/
def insertRoleRecord (db : DB) (u : Nat) (r : String) : DB :=
  if r = "patient" then { db with patients := db.patients ++ [u] }
  else if r = "doctor" then { db with doctors := db.doctors ++ [u] }
  else if r = "admin" then { db with admins := db.admins ++ [u] }
  else if r = "pharmacy" then
    { db with pharmacy_staff := db.pharmacy_staff ++ [(u, none)] }
  else db

/-- The delete half of `handle_user_role_change`: delete the satellite
row(s) of the old role (`DELETE ... WHERE user_id = OLD.id`). -/
def deleteRoleRecord (db : DB) (u : Nat) (r : String) : DB :=
  if r = "patient" then { db with patients := db.patients.filter (fun v => v != u) }
  else if r = "doctor" then { db with doctors := db.doctors.filter (fun v => v != u) }
  else if r = "pharmacy" then
    { db with pharmacy_staff := db.pharmacy_staff.filter (fun p => p.1 != u) }
  else if r = "admin" then { db with admins := db.admins.filter (fun v => v != u) }
  else db

/-- `INSERT INTO users` followed by the AFTER INSERT trigger; a duplicate
primary key aborts the transaction, leaving the state unchanged. -/
def createUser (db : DB) (u : Nat) (r : String) : DB :=
  if (db.users.find? (fun p => p.1 == u)).isSome then db
  else insertRoleRecord { db with users := db.users ++ [(u, r)] } u r

/-- `UPDATE users SET role = :r WHERE id = :u` followed by the AFTER
UPDATE trigger: the trigger body runs only when `OLD.role IS DISTINCT
FROM NEW.role`, deleting the old-role satellite row and inserting the
new-role one. -/
def updateRole (db : DB) (u : Nat) (r : String) : DB :=
  match db.users.find? (fun p => p.1 == u) with
  | none => db
  | some old =>
      let db1 : DB := { db with users := db.users.map (fun p =>
        if p.1 == u then (p.1, r) else p) }
      if old.2 = r then db1
      else insertRoleRecord (deleteRoleRecord db1 u old.2) u r

/-- A user-creation or role-update operation. -/
inductive Op
  | create (u : Nat) (r : String)
  | setRole (u : Nat) (r : String)
  deriving DecidableEq, Repr

/-- Apply one operation. -/
def step (db : DB) : Op → DB
  | .create u r => createUser db u r
  | .setRole u r => updateRole db u r

/-- Run a sequence of operations from the empty database. -/
def run (ops : List Op) : DB :=
  ops.foldl step initDB

/-- The number of satellite rows a user has in each of the four tables
(patients, doctors, pharmacy_staff, admins). -/
def cnt (db : DB) (u : Nat) : Nat × Nat × Nat × Nat :=
  (db.patients.count u, db.doctors.count u,
    db.pharmacy_staff.countP (fun p => p.1 == u), db.admins.count u)

/-- The satellite-row counts demanded by a role value: one row in the
matching table for the four known roles, no rows otherwise. -/
def expected : Option String → Nat × Nat × Nat × Nat
  | none => (0, 0, 0, 0)
  | some r =>
      (if r = "patient" then 1 else 0, if r = "doctor" then 1 else 0,
        if r = "pharmacy" then 1 else 0, if r = "admin" then 1 else 0)

/-- The inductive invariant: user ids are unique, and every user's
satellite-row counts match the user's current role (users absent from
the table have no satellite rows). -/
def Inv (db : DB) : Prop :=
  (db.users.map (fun p => p.1)).Nodup ∧ ∀ u, cnt db u = expected (roleOf db u)

end RoleTrig

/-! ### Concrete sample data (inputs for evaluated instances) -/

/-- A sample appointment-creation payload. -/
def sampleCreate : Appt.AppointmentCreate :=
  { doctor_id := none, clinic_id := none, doctor_name := "Dr A"
    clinic_name := none, appointment_at := 10, appointment_end_at := none
    reason := "checkup", contact_phone := "1234567", notes := none
    source := "patient_app" }

/-- A sample live appointment owned by patient 1. -/
def sampleAppt : Appt.Appointment :=
  { id := 1, patient_id := 1, doctor_id := none, clinic_id := none
    doctor_name := "Dr A", clinic_name := none, appointment_at := 10
    appointment_end_at := none, reason := "checkup", contact_phone := "1234567"
    notes := none, source := "patient_app", status := "scheduled"
    cancelled_at := none, deleted_at := none, updated_at := 0 }

/-- A soft-deleted appointment owned by patient 1. -/
def sampleApptDeleted : Appt.Appointment :=
  { sampleAppt with id := 2, deleted_at := some 5 }

/-- Default list filters (first page, no optional filters). -/
def sampleFilters : Appt.AppointmentFilters :=
  { status := none, doctor_id := none, clinic_id := none, from_date := none
    to_date := none, page := 1, page_size := 20 }

/-- The sample appointment after a cancellation at time 20. -/
def sampleApptCancelled : Appt.Appointment :=
  { sampleAppt with
    status := "cancelled"
    cancelled_at := some 20
    updated_at := 20 }

/-- A notification row owned by user 7 whose status is `failed`. -/
def sampleNotification : Notif.Notification :=
  { id := 3, user_id := 7, title := "t", body := "b"
    notification_type := "other", priority := "normal", data := none
    status := "failed", failure_reason := none, sent_at := none
    delivered_at := none, read_at := none, updated_at := 0 }

/-- A notification store holding only `sampleNotification`. -/
def dbRead : Notif.NotifDB :=
  { notifications := [sampleNotification], deliveries := [], push_tokens := [] }

/-- A notification store with no notification rows and one active token
for user 7. -/
def dbOneToken : Notif.NotifDB :=
  { notifications := [], deliveries := []
    push_tokens := [{ id := 5, user_id := 7, fcm_token := "tokA"
                      platform := "android", is_active := true
                      last_used_at := none }] }

/-- Push tokens of user 7: two active android tokens and one ios token. -/
def sampleTokens : List Notif.PushToken :=
  [ { id := 1, user_id := 7, fcm_token := "tokA", platform := "android"
      is_active := true, last_used_at := none },
    { id := 2, user_id := 7, fcm_token := "tokB", platform := "android"
      is_active := true, last_used_at := none },
    { id := 3, user_id := 7, fcm_token := "tokC", platform := "ios"
      is_active := true, last_used_at := none } ]

/-- A sample operation sequence: create user 1 as patient, then change
the role to doctor. -/
def sampleOps : List RoleTrig.Op :=
  [RoleTrig.Op.create 1 "patient", RoleTrig.Op.setRole 1 "doctor"]

/-! ### Shared helper lemmas -/

/-- A successful `get_appointment` returns the row the id lookup finds,
and that row belongs to the requesting user. -/
theorem appt_get_ok {db : List Appt.Appointment} {aid uid : Nat}
    {a : Appt.Appointment} (h : Appt.get_appointment db aid uid = .ok a) :
    Appt.findActive db aid = some a ∧ a.patient_id = uid := by
  cases hf : Appt.findActive db aid with
  | none => simp [Appt.get_appointment, hf] at h
  | some row =>
      simp only [Appt.get_appointment, hf] at h
      by_cases hp : row.patient_id ≠ uid
      · rw [if_pos hp] at h; exact absurd h (by simp)
      · rw [if_neg hp] at h
        simp only [Except.ok.injEq] at h
        subst h
        exact ⟨rfl, not_not.1 hp⟩

/-- When the id lookup finds a row of another patient, `get_appointment`
raises `ForbiddenException`. -/
theorem appt_get_forbidden {db : List Appt.Appointment} {aid uid : Nat}
    {a : Appt.Appointment} (hf : Appt.findActive db aid = some a)
    (hp : a.patient_id ≠ uid) :
    Appt.get_appointment db aid uid = .error .forbidden := by
  simp only [Appt.get_appointment, hf]
  rw [if_pos hp]

/-! ### Claim theorems -/

/-- `deactivateOthers` never changes the id, owner, token value or
platform of a row. -/
theorem deact_fields (uid : Nat) (fcm plat : String) (t : Notif.PushToken) :
    (Notif.deactivateOthers uid fcm plat t).id = t.id
    ∧ (Notif.deactivateOthers uid fcm plat t).user_id = t.user_id
    ∧ (Notif.deactivateOthers uid fcm plat t).fcm_token = t.fcm_token
    ∧ (Notif.deactivateOthers uid fcm plat t).platform = t.platform := by
  unfold Notif.deactivateOthers; split <;> exact ⟨rfl, rfl, rfl, rfl⟩

/-- `reactivateExisting` never changes the id, owner or token value of a
row. -/
theorem react_fields (exId : Nat) (plat : String) (now : Nat)
    (t : Notif.PushToken) :
    (Notif.reactivateExisting exId plat now t).id = t.id
    ∧ (Notif.reactivateExisting exId plat now t).user_id = t.user_id
    ∧ (Notif.reactivateExisting exId plat now t).fcm_token = t.fcm_token := by
  unfold Notif.reactivateExisting; split <;> exact ⟨rfl, rfl, rfl⟩

/-- A row matching the WHERE clause of the deactivation UPDATE comes out
inactive. -/
theorem deact_active (uid : Nat) (fcm plat : String) (t : Notif.PushToken)
    (hu : t.user_id = uid) (hp : t.platform = plat) (hf : t.fcm_token ≠ fcm) :
    (Notif.deactivateOthers uid fcm plat t).is_active = false := by
  unfold Notif.deactivateOthers; rw [if_pos ⟨hu, hp, hf⟩]

/-- A row not matching the WHERE clause of the deactivation UPDATE is
untouched. -/
theorem deact_skip (uid : Nat) (fcm plat : String) (t : Notif.PushToken)
    (h : ¬ (t.user_id = uid ∧ t.platform = plat ∧ t.fcm_token ≠ fcm)) :
    Notif.deactivateOthers uid fcm plat t = t := if_neg h

/-- C9: every `CacheManager` operation swallows an error raised by the
underlying Redis client and returns its neutral result: `None` for
`get`/`get_json`, `False` for `set`/`set_json`/`delete`/`exists`, and
`0` for `delete_pattern` (whether the `keys` listing or the bulk delete
raises). -/
theorem cache_operations_fail_open :
    ∀ e : String,
      Cache.cacheGet (Except.error e) = none
      ∧ (∀ ttl, Cache.cacheSet ttl (Except.error e) (Except.error e) = false)
      ∧ Cache.cacheDelete (Except.error e) = false
      ∧ Cache.cacheExists (Except.error e) = false
      ∧ (∀ (V : Type) (loads : String → Except String V),
          Cache.cacheGetJson (Except.error e) loads = none)
      ∧ (∀ dumps ttl,
          Cache.cacheSetJson dumps ttl (Except.error e) (Except.error e) = false)
      ∧ (∀ delR, Cache.cacheDeletePattern (Except.error e) delR = 0)
      ∧ (∀ keys, Cache.cacheDeletePattern (Except.ok keys) (Except.error e) = 0) := by
  intro e
  refine ⟨rfl, fun ttl => ?_, rfl, rfl, fun V loads => rfl,
    fun dumps ttl => ?_, fun delR => rfl, fun keys => ?_⟩
  · unfold Cache.cacheSet; split <;> rfl
  · cases dumps with
    | error _ => rfl
    | ok _ => simp only [Cache.cacheSetJson]; split <;> rfl
  · simp only [Cache.cacheDeletePattern]; split <;> rfl

/-- C10: `mark_notification_as_read` overwrites the status of every
notification row matching the given (id, user) pair with `read` and
stamps `read_at`, whatever the prior status was, returning `True`
exactly when a row matched; when no row matches it returns `False` and
leaves the store unchanged. -/
theorem mark_notification_read_semantics (db : Notif.NotifDB)
    (nid uid now : Nat) :
    (∀ n ∈ (Notif.mark_notification_as_read db nid uid now).1.notifications,
        n.id = nid → n.user_id = uid → n.status = "read" ∧ n.read_at = some now)
    ∧ ((∃ n ∈ db.notifications, n.id = nid ∧ n.user_id = uid) →
        (Notif.mark_notification_as_read db nid uid now).2 = true)
    ∧ ((∀ n ∈ db.notifications, ¬ (n.id = nid ∧ n.user_id = uid)) →
        (Notif.mark_notification_as_read db nid uid now).2 = false
        ∧ (Notif.mark_notification_as_read db nid uid now).1 = db) := by
  refine ⟨?_, ?_, ?_⟩
  · intro n hn hid huid
    simp only [Notif.mark_notification_as_read] at hn
    obtain ⟨m, hm, rfl⟩ := List.mem_map.1 hn
    by_cases h : m.id = nid ∧ m.user_id = uid
    · simp [h]
    · rw [if_neg h] at hid huid ⊢
      exact absurd ⟨hid, huid⟩ h
  · rintro ⟨n, hn, h1, h2⟩
    simp only [Notif.mark_notification_as_read, decide_eq_true_eq]
    exact List.countP_pos_iff.2 ⟨n, hn, by simp [h1, h2]⟩
  · intro h
    constructor
    · simp only [Notif.mark_notification_as_read, decide_eq_false_iff_not,
        Nat.not_lt, Nat.le_zero]
      exact List.countP_eq_zero.2 (fun n hn => by simpa using h n hn)
    · have hmap : db.notifications.map (fun n =>
          if n.id = nid ∧ n.user_id = uid then
            { n with read_at := some now, status := "read", updated_at := now }
          else n) = db.notifications := by
        rw [List.map_congr_left (fun a ha => if_neg (h a ha))]
        exact List.map_id' _
      simp only [Notif.mark_notification_as_read, hmap]

/-- Evaluated instance of `mark_notification_read_semantics` on concrete
stores: a matching `failed` row yields `True`; an empty match yields
`False`. -/
theorem mark_notification_read_semantics_witness :
    (Notif.mark_notification_as_read dbRead 3 7 50).2 = true
    ∧ (Notif.mark_notification_as_read dbRead 4 7 50).2 = false :=
  ⟨(mark_notification_read_semantics dbRead 3 7 50).2.1 (by decide),
   ((mark_notification_read_semantics dbRead 4 7 50).2.2 (by decide)).1⟩

/-- C4: creation always yields status `scheduled`; the status-update
operation stamps a non-null `cancelled_at` when the new status is
`cancelled`, and leaves every row's `cancelled_at` unchanged when the
new status is anything else. -/
theorem appointment_status_rules :
    (∀ db aid pid now d,
        (Appt.create_appointment db aid pid now d).2.status = "scheduled"
        ∧ (Appt.create_appointment db aid pid now d).2
            ∈ (Appt.create_appointment db aid pid now d).1)
    ∧ (∀ db aid uid st notes now db2 row a,
        Appt.get_appointment db aid uid = .ok a →
        Appt.update_appointment_status db aid uid st notes now = (db2, .ok row) →
        (st = "cancelled" →
          row.cancelled_at = some now
          ∧ ∀ b ∈ db2, b.id = aid → b.cancelled_at = some now)
        ∧ (st ≠ "cancelled" →
          row.cancelled_at = a.cancelled_at
          ∧ db2.map (fun b => b.cancelled_at) = db.map (fun b => b.cancelled_at))) := by
  constructor
  · intro db aid pid now d
    exact ⟨rfl, by simp [Appt.create_appointment]⟩
  · intro db aid uid st notes now db2 row a hget h
    simp only [Appt.update_appointment_status, hget] at h
    simp only [Prod.mk.injEq, Except.ok.injEq] at h
    obtain ⟨hdb2, hrow⟩ := h
    constructor
    · intro hst
      subst hst
      constructor
      · rw [← hrow]; simp
      · intro b hb hid
        rw [← hdb2] at hb
        obtain ⟨c, _, rfl⟩ := List.mem_map.1 hb
        by_cases hc : c.id = aid
        · simp [hc]
        · rw [if_neg hc] at hid ⊢
          exact absurd hid hc
    · intro hst
      constructor
      · rw [← hrow]; simp [if_neg hst]
      · rw [← hdb2, List.map_map]
        refine List.map_congr_left (fun c _ => ?_)
        by_cases hc : c.id = aid
        · simp [hc, if_neg hst]
        · simp [hc]

/-- Evaluated instance of `appointment_status_rules`: cancelling the
sample appointment stamps `cancelled_at = 20`; confirming it leaves
`cancelled_at` null. -/
theorem appointment_status_rules_witness :
    (Appt.create_appointment [] 1 1 0 sampleCreate).2.status = "scheduled"
    ∧ sampleApptCancelled.cancelled_at = some 20 :=
  ⟨(appointment_status_rules.1 [] 1 1 0 sampleCreate).1,
   ((appointment_status_rules.2 [sampleAppt] 1 1 "cancelled" none 20
      [sampleApptCancelled] sampleApptCancelled sampleAppt rfl rfl).1 rfl).1⟩

/-- C5: each of fetch, update, status-update and delete succeeds only for
the appointment's owning patient, and when the id lookup finds a live
appointment of a different patient every one of them fails with
`ForbiddenException`, leaving the table unchanged. -/
theorem appointment_owner_only (db : List Appt.Appointment) (aid uid : Nat) :
    (∀ row, Appt.get_appointment db aid uid = .ok row → row.patient_id = uid)
    ∧ (∀ u now db2 row,
        Appt.update_appointment db aid uid now u = (db2, .ok row) →
        row.patient_id = uid)
    ∧ (∀ st notes now db2 row,
        Appt.update_appointment_status db aid uid st notes now = (db2, .ok row) →
        row.patient_id = uid)
    ∧ (∀ hard now db2 r,
        Appt.delete_appointment db aid uid hard now = (db2, .ok r) →
        ∃ a, Appt.findActive db aid = some a ∧ a.patient_id = uid)
    ∧ (∀ a, Appt.findActive db aid = some a → a.patient_id ≠ uid →
        Appt.get_appointment db aid uid = .error .forbidden
        ∧ (∀ u now, Appt.update_appointment db aid uid now u = (db, .error .forbidden))
        ∧ (∀ st notes now,
            Appt.update_appointment_status db aid uid st notes now = (db, .error .forbidden))
        ∧ (∀ hard now,
            Appt.delete_appointment db aid uid hard now = (db, .error .forbidden))) := by
  refine ⟨?_, ?_, ?_, ?_, ?_⟩
  · intro row h; exact (appt_get_ok h).2
  · intro u now db2 row h
    cases hget : Appt.get_appointment db aid uid with
    | error e => simp [Appt.update_appointment, hget, Prod.ext_iff] at h
    | ok a =>
        have hpat := (appt_get_ok hget).2
        simp only [Appt.update_appointment, hget] at h
        split at h
        · simp only [Prod.mk.injEq, Except.ok.injEq] at h
          rw [← h.2]; exact hpat
        · simp only [Prod.mk.injEq, Except.ok.injEq] at h
          rw [← h.2]; simpa [Appt.applyUpdate] using hpat
  · intro st notes now db2 row h
    cases hget : Appt.get_appointment db aid uid with
    | error e => simp [Appt.update_appointment_status, hget, Prod.ext_iff] at h
    | ok a =>
        have hpat := (appt_get_ok hget).2
        simp only [Appt.update_appointment_status, hget] at h
        simp only [Prod.mk.injEq, Except.ok.injEq] at h
        rw [← h.2]; simpa using hpat
  · intro hard now db2 r h
    cases hget : Appt.get_appointment db aid uid with
    | error e => simp [Appt.delete_appointment, hget, Prod.ext_iff] at h
    | ok a => exact ⟨a, (appt_get_ok hget).1, (appt_get_ok hget).2⟩
  · intro a hf hp
    have hforb := appt_get_forbidden hf hp
    refine ⟨hforb, fun u now => ?_, fun st notes now => ?_, fun hard now => ?_⟩
    · simp [Appt.update_appointment, hforb]
    · simp [Appt.update_appointment_status, hforb]
    · simp [Appt.delete_appointment, hforb]

/-- Evaluated instance of `appointment_owner_only`: user 9 is denied
access to the sample appointment of patient 1. -/
theorem appointment_owner_only_witness :
    Appt.get_appointment [sampleAppt] 1 9 = .error .forbidden
    ∧ Appt.delete_appointment [sampleAppt] 1 9 false 30 = ([sampleAppt], .error .forbidden)
    ∧ (Appt.get_appointment [sampleAppt] 1 1 = .ok sampleAppt → sampleAppt.patient_id = 1) := by
  have h := appointment_owner_only [sampleAppt] 1 9
  have hforb := h.2.2.2.2 sampleAppt (by decide) (by decide)
  exact ⟨hforb.1, hforb.2.2.2 false 30,
    fun hg => (appointment_owner_only [sampleAppt] 1 1).1 sampleAppt hg⟩

/-- C6: a soft-deleted appointment (non-null `deleted_at`) is reported
not-found by the direct fetch and excluded from the list result, while a
hard delete removes the row from the table entirely. -/
theorem appointment_delete_visibility (db : List Appt.Appointment) (uid : Nat) :
    (∀ a ∈ db, a.deleted_at ≠ none →
      ((∀ b ∈ db, b.id = a.id → b = a) →
          Appt.get_appointment db a.id uid = .error .notFound)
      ∧ ∀ f, a ∉ (Appt.list_appointments db uid f).items)
    ∧ (∀ aid now db2 r,
        Appt.delete_appointment db aid uid true now = (db2, .ok r) →
        ∀ b ∈ db2, b.id ≠ aid) := by
  constructor
  · intro a ha hdel
    constructor
    · intro huniq
      cases hf : Appt.findActive db a.id with
      | none => simp [Appt.get_appointment, hf]
      | some b =>
          exfalso
          have hb := List.mem_of_find?_eq_some hf
          have hpred := List.find?_some hf
          simp only [Bool.and_eq_true, beq_iff_eq, Option.isNone_iff_eq_none] at hpred
          have : b = a := huniq b hb hpred.1
          rw [this] at hpred
          exact hdel hpred.2
    · intro f hmem
      simp only [Appt.list_appointments] at hmem
      have h1 := List.mem_of_mem_take hmem
      have h2 := List.mem_of_mem_drop h1
      have h3 := (List.perm_insertionSort _ _).subset h2
      have h4 := List.of_mem_filter h3
      simp only [Appt.listCond, Bool.and_eq_true, Option.isNone_iff_eq_none] at h4
      exact hdel h4.1.1.1.1.1.2
  · intro aid now db2 r h
    cases hget : Appt.get_appointment db aid uid with
    | error e => simp [Appt.delete_appointment, hget, Prod.ext_iff] at h
    | ok a =>
        simp only [Appt.delete_appointment, hget, if_pos] at h
        simp only [Prod.mk.injEq] at h
        intro b hb
        rw [← h.1] at hb
        have := List.of_mem_filter hb
        simpa using this

/-- Evaluated instance of `appointment_delete_visibility`: the
soft-deleted sample appointment is invisible to fetch and list, and a
hard delete of appointment 1 leaves no row with id 1. -/
theorem appointment_delete_visibility_witness :
    Appt.get_appointment [sampleAppt, sampleApptDeleted] 2 1 = .error .notFound
    ∧ sampleApptDeleted ∉
        (Appt.list_appointments [sampleAppt, sampleApptDeleted] 1 sampleFilters).items
    ∧ (Appt.delete_appointment [sampleAppt, sampleApptDeleted] 1 1 true 40
          = ([sampleApptDeleted], .ok ())
        → ∀ b ∈ [sampleApptDeleted], b.id ≠ 1) := by
  have h := (appointment_delete_visibility [sampleAppt, sampleApptDeleted] 1).1
    sampleApptDeleted (by decide) (by decide)
  refine ⟨h.1 (by decide), h.2 sampleFilters, fun hd => ?_⟩
  exact (appointment_delete_visibility [sampleAppt, sampleApptDeleted] 1).2 1 40
    [sampleApptDeleted] () hd

/-- C7: registering a push token deactivates every other token of the
same user on the same platform, leaves the user's tokens on other
platforms untouched (they remain in the table unchanged), and the
registered token itself ends up active.  The hypotheses are the table's
primary-key and `(user_id, fcm_token)` uniqueness constraints. -/
theorem register_token_platform_isolation
    (tokens : List Notif.PushToken) (freshId uid : Nat) (fcm plat : String)
    (now : Nat)
    (hid : (tokens.map (fun t => t.id)).Nodup)
    (huf : ∀ t1 ∈ tokens, ∀ t2 ∈ tokens,
        t1.user_id = t2.user_id → t1.fcm_token = t2.fcm_token → t1 = t2) :
    (∀ t ∈ Notif.register_token tokens freshId uid fcm plat now,
        t.user_id = uid → t.platform = plat → t.fcm_token ≠ fcm →
        t.is_active = false)
    ∧ (∀ t ∈ tokens, t.user_id = uid → t.platform ≠ plat → t.fcm_token ≠ fcm →
        t ∈ Notif.register_token tokens freshId uid fcm plat now)
    ∧ (∀ t ∈ Notif.register_token tokens freshId uid fcm plat now,
        t.user_id = uid → t.fcm_token = fcm → t.is_active = true)
    ∧ (∃ t ∈ Notif.register_token tokens freshId uid fcm plat now,
        t.user_id = uid ∧ t.fcm_token = fcm ∧ t.is_active = true) := by
  have ht1ids :
      ((tokens.map (Notif.deactivateOthers uid fcm plat)).map
        (fun t => t.id)).Nodup := by
    rw [List.map_map]
    have hcomp : ((fun t : Notif.PushToken => t.id) ∘
        Notif.deactivateOthers uid fcm plat) = fun t => t.id := by
      funext t; exact (deact_fields uid fcm plat t).1
    rw [hcomp]; exact hid
  have hinj := List.inj_on_of_nodup_map ht1ids
  cases hfind : (tokens.map (Notif.deactivateOthers uid fcm plat)).find?
      (fun t => t.user_id == uid && t.fcm_token == fcm) with
  | some ex =>
      have hexmem := List.mem_of_find?_eq_some hfind
      have hexpred := List.find?_some hfind
      simp only [Bool.and_eq_true, beq_iff_eq] at hexpred
      simp only [Notif.register_token, hfind]
      refine ⟨?_, ?_, ?_, ?_⟩
      · intro t ht hu hp hf
        obtain ⟨s, hs, rfl⟩ := List.mem_map.1 ht
        by_cases hcase : s.id = ex.id
        · exfalso; apply hf
          rw [(react_fields ex.id plat now s).2.2,
            hinj hs hexmem hcase, hexpred.2]
        · simp only [Notif.reactivateExisting, if_neg hcase] at hu hp hf ⊢
          obtain ⟨t0, _, rfl⟩ := List.mem_map.1 hs
          obtain ⟨_, hiu, hif, hip⟩ := deact_fields uid fcm plat t0
          rw [hiu] at hu; rw [hip] at hp; rw [hif] at hf
          exact deact_active uid fcm plat t0 hu hp hf
      · intro t ht hu hp hf
        have hskip : Notif.deactivateOthers uid fcm plat t = t :=
          deact_skip uid fcm plat t (by rintro ⟨_, h2, _⟩; exact hp h2)
        have ht1 : t ∈ tokens.map (Notif.deactivateOthers uid fcm plat) :=
          List.mem_map.2 ⟨t, ht, hskip⟩
        by_cases hcase : t.id = ex.id
        · exfalso; apply hf
          rw [hinj ht1 hexmem hcase, hexpred.2]
        · refine List.mem_map.2 ⟨t, ht1, ?_⟩
          simp only [Notif.reactivateExisting, if_neg hcase]
      · intro t ht hu hf
        obtain ⟨s, hs, rfl⟩ := List.mem_map.1 ht
        by_cases hcase : s.id = ex.id
        · simp [Notif.reactivateExisting, hcase]
        · simp only [Notif.reactivateExisting, if_neg hcase] at hu hf ⊢
          obtain ⟨a, ha, rfl⟩ := List.mem_map.1 hs
          obtain ⟨b, hb, hbeq⟩ := List.mem_map.1 hexmem
          have hfa := deact_fields uid fcm plat a
          have hfb := deact_fields uid fcm plat b
          have hab : a = b := by
            refine huf a ha b hb ?_ ?_
            · rw [← hfa.2.1, ← hfb.2.1, hbeq, hu, hexpred.1]
            · rw [← hfa.2.2.1, ← hfb.2.2.1, hbeq, hf, hexpred.2]
          exfalso; exact hcase (by rw [hab, hbeq])
      · refine ⟨Notif.reactivateExisting ex.id plat now ex,
          List.mem_map.2 ⟨ex, hexmem, rfl⟩, ?_, ?_, ?_⟩
        · rw [(react_fields ex.id plat now ex).2.1]; exact hexpred.1
        · rw [(react_fields ex.id plat now ex).2.2]; exact hexpred.2
        · simp [Notif.reactivateExisting]
  | none =>
      have hnone : ∀ s ∈ tokens.map (Notif.deactivateOthers uid fcm plat),
          ¬ (s.user_id = uid ∧ s.fcm_token = fcm) := by
        intro s hs
        have := List.find?_eq_none.1 hfind s hs
        simpa using this
      simp only [Notif.register_token, hfind]
      refine ⟨?_, ?_, ?_, ?_⟩
      · intro t ht hu hp hf
        rcases List.mem_append.1 ht with h1 | h1
        · obtain ⟨t0, _, rfl⟩ := List.mem_map.1 h1
          obtain ⟨_, hiu, hif, hip⟩ := deact_fields uid fcm plat t0
          rw [hiu] at hu; rw [hip] at hp; rw [hif] at hf
          exact deact_active uid fcm plat t0 hu hp hf
        · rw [List.mem_singleton.1 h1] at hf
          exact absurd rfl hf
      · intro t ht hu hp hf
        have hskip : Notif.deactivateOthers uid fcm plat t = t :=
          deact_skip uid fcm plat t (by rintro ⟨_, h2, _⟩; exact hp h2)
        exact List.mem_append_left _ (List.mem_map.2 ⟨t, ht, hskip⟩)
      · intro t ht hu hf
        rcases List.mem_append.1 ht with h1 | h1
        · exact absurd ⟨hu, hf⟩ (hnone t h1)
        · rw [List.mem_singleton.1 h1]
      · exact ⟨_, List.mem_append_right _ (List.mem_singleton.2 rfl),
          rfl, rfl, rfl⟩

/-- Evaluated instance of `register_token_platform_isolation` on the
sample token table (both uniqueness hypotheses checked by `decide`):
re-registering `tokB` for user 7 on android leaves an active row for it. -/
theorem register_token_platform_isolation_witness :
    ∃ t ∈ Notif.register_token sampleTokens 99 7 "tokB" "android" 50,
      t.user_id = 7 ∧ t.fcm_token = "tokB" ∧ t.is_active = true :=
  (register_token_platform_isolation sampleTokens 99 7 "tokB" "android" 50
    (by decide) (by decide)).2.2.2

/-- Rows selected by an UPDATE keyed on an id column: a row of the mapped
table whose key matches came from a matching row and carries the update. -/
theorem upd_by_id_mem {β : Type} (key : β → Nat) (g : β → β) (nid : Nat)
    (l : List β) (n : β)
    (hn : n ∈ l.map (fun m => if key m = nid then g m else m))
    (hid : key n = nid) :
    ∃ m ∈ l, key m = nid ∧ n = g m := by
  obtain ⟨m, hm, rfl⟩ := List.mem_map.1 hn
  by_cases h : key m = nid
  · exact ⟨m, hm, h, by rw [if_pos h]⟩
  · rw [if_neg h] at hid; exact absurd hid h

/-- In every list of Booleans, the `true` count and `false` count add up
to the length. -/
theorem count_bool (l : List Bool) : l.count true + l.count false = l.length := by
  induction l with
  | nil => rfl
  | cons b t ih => cases b <;> simp [List.count_cons, ih] <;> omega

/-- C8: for any candidate rows, distance expression, radius, pagination
and non-geographic filters, both nearby searches return rows whose
`distance_km` annotations are monotonically non-decreasing, and every
returned row's `distance_km` is at most the requested `radius_km`. -/
theorem nearby_search_sorted_within :
    ∀ (α : Type) (rows : List α) (dist_m dist_km : α → ℚ) (radius_km : ℚ)
      (skip lim : Nat) (passes : α → Bool),
      (List.Sorted (fun a b => a.2 ≤ b.2)
          (Geo.search_pharmacies_nearby rows dist_m radius_km skip lim passes)
        ∧ ∀ x ∈ Geo.search_pharmacies_nearby rows dist_m radius_km skip lim passes,
            x.2 ≤ radius_km)
      ∧ (List.Sorted (fun a b => a.2 ≤ b.2)
          (Geo.search_clinics_nearby rows dist_km radius_km skip lim passes)
        ∧ ∀ x ∈ Geo.search_clinics_nearby rows dist_km radius_km skip lim passes,
            x.2 ≤ radius_km) := by
  intro α rows dist_m dist_km radius_km skip lim passes
  have hsub : ∀ (l : List (α × ℚ)),
      List.Sublist (((l.insertionSort (fun a b => a.2 ≤ b.2)).drop skip).take lim)
        (l.insertionSort (fun a b => a.2 ≤ b.2)) :=
    fun l => (List.take_sublist _ _).trans (List.drop_sublist _ _)
  have hsorted : ∀ (l : List (α × ℚ)),
      List.Sorted (fun a b => a.2 ≤ b.2)
        (((l.insertionSort (fun a b => a.2 ≤ b.2)).drop skip).take lim) :=
    fun l => (List.sorted_insertionSort _ l).sublist (hsub l)
  have hmem : ∀ (l : List (α × ℚ)) (x : α × ℚ),
      x ∈ ((l.insertionSort (fun a b => a.2 ≤ b.2)).drop skip).take lim →
      x ∈ l := by
    intro l x hx
    exact (List.perm_insertionSort _ _).subset
      (List.mem_of_mem_drop (List.mem_of_mem_take hx))
  refine ⟨⟨hsorted _, ?_⟩, ⟨hsorted _, ?_⟩⟩
  · intro x hx
    have hx2 := hmem _ x hx
    obtain ⟨p, hp, rfl⟩ := List.mem_map.1 hx2
    have hfilt := List.of_mem_filter hp
    simp only [Bool.and_eq_true, decide_eq_true_eq] at hfilt
    have h1000 : (0 : ℚ) < 1000 := by norm_num
    rw [div_le_iff₀ h1000]
    exact hfilt.2
  · intro x hx
    have hx2 := hmem _ x hx
    have hfilt := List.of_mem_filter hx2
    simpa using hfilt

/-- Evaluated instance of `nearby_search_sorted_within`: rows at 500 m
and 1000 m from the query point within a 1 km radius; the row at 500 m
is returned with `distance_km = 1/2`, which is within the radius. -/
theorem nearby_search_sorted_within_witness :
    ((1 : Nat), (1 : ℚ)/2) ∈ Geo.search_pharmacies_nearby [1, 2, 3]
        (fun n : Nat => (n : ℚ) * 500) 1 0 10 (fun _ => true)
    ∧ ((1 : Nat), (1 : ℚ)/2).2 ≤ 1 := by
  have h := nearby_search_sorted_within Nat [1, 2, 3]
    (fun n : Nat => (n : ℚ) * 500) (fun n : Nat => (n : ℚ)) 1 0 10
    (fun _ => true)
  have hmem : ((1 : Nat), (1 : ℚ)/2) ∈ Geo.search_pharmacies_nearby [1, 2, 3]
      (fun n : Nat => (n : ℚ) * 500) 1 0 10 (fun _ => true) := by
    simp [Geo.search_pharmacies_nearby, List.filter, List.insertionSort,
      List.orderedInsert]
    norm_num
  exact ⟨hmem, h.1.2 _ hmem⟩

/-- C2 counterexample: with one active token, an exception (text
`"boom"`) raised by the external FCM call is caught inside
`send_push_notification`, so `send_to_user`'s success path runs: the
delivery rows end up `sent` (not `failed`) and no failure reason is
recorded — refuting the claim that such an exception marks the
notification and all its delivery rows failed with the exception text. -/
theorem notif_send_exception_counterexample :
    ¬ ((∀ d ∈ (Notif.send_to_user dbOneToken 1 7 "t" "b" "other" "normal"
          none 100 (Except.error "boom") none).1.deliveries,
        d.delivery_status = "failed" ∧ d.failure_reason = some "boom")
      ∧ (∀ n ∈ (Notif.send_to_user dbOneToken 1 7 "t" "b" "other" "normal"
          none 100 (Except.error "boom") none).1.notifications,
        n.id = 1 → n.failure_reason = some "boom")) := by
  decide

/-- C2 (amended): with at least one active token and a fresh notification
id, (1) an exception that reaches `send_to_user`'s `except` handler —
only the database statements after the send can raise there, since
`send_push_notification` catches everything — marks the notification and
all its delivery rows `failed` with the exception text, while (2) an
exception raised by the external FCM call itself is swallowed inside
`send_push_notification` and reported as zero successes: the notification
is marked `failed` with no failure reason recorded and a null
`delivered_at`, and every delivery row is marked `sent`. -/
theorem notif_send_exception_semantics
    (db : Notif.NotifDB) (nid uid : Nat) (title body ntype prio : String)
    (payload : Option String) (now : Nat) (e : String)
    (hne : (db.push_tokens.filter
      (fun t => t.user_id == uid && t.is_active)).isEmpty = false)
    (hfresh : ∀ n ∈ db.notifications, n.id ≠ nid) :
    (∀ fcm,
      (∀ n ∈ (Notif.send_to_user db nid uid title body ntype prio payload now
            fcm (some e)).1.notifications,
          n.id = nid → n.status = "failed" ∧ n.failure_reason = some e)
      ∧ (∀ d ∈ (Notif.send_to_user db nid uid title body ntype prio payload now
            fcm (some e)).1.deliveries,
          d.notification_id = nid →
          d.delivery_status = "failed" ∧ d.failure_reason = some e))
    ∧ ((∀ n ∈ (Notif.send_to_user db nid uid title body ntype prio payload now
            (Except.error e) none).1.notifications,
          n.id = nid → n.status = "failed" ∧ n.failure_reason = none
            ∧ n.delivered_at = none)
      ∧ (∀ d ∈ (Notif.send_to_user db nid uid title body ntype prio payload now
            (Except.error e) none).1.deliveries,
          d.notification_id = nid →
          d.delivery_status = "sent" ∧ d.delivered_at = some now)) := by
  constructor
  · intro fcm
    constructor
    · intro n hn hid
      simp only [Notif.send_to_user, hne, Bool.false_eq_true, if_false] at hn
      obtain ⟨m, hm, hkey, rfl⟩ := upd_by_id_mem (fun x => x.id)
        (fun x => { x with status := "failed", failure_reason := some e })
        nid _ n hn hid
      exact ⟨rfl, rfl⟩
    · intro d hd hid
      simp only [Notif.send_to_user, hne, Bool.false_eq_true, if_false] at hd
      obtain ⟨m, hm, hkey, rfl⟩ := upd_by_id_mem (fun x => x.notification_id)
        (fun x => { x with delivery_status := "failed", failure_reason := some e })
        nid _ d hd hid
      exact ⟨rfl, rfl⟩
  · constructor
    · intro n hn hid
      simp only [Notif.send_to_user, hne, Bool.false_eq_true, if_false,
        Notif.send_push_notification] at hn
      obtain ⟨m, hm, hkey, rfl⟩ := upd_by_id_mem (fun x => x.id) _ nid _ n hn hid
      obtain ⟨m2, hm2, hkey2, rfl⟩ := upd_by_id_mem (fun x => x.id)
        (fun x => { x with status := "sent", sent_at := some now })
        nid _ m hm hkey
      rcases List.mem_append.1 hm2 with h1 | h1
      · exact absurd hkey2 (hfresh m2 h1)
      · rw [List.mem_singleton.1 h1]
        have hfilterne : List.filter (fun t => t.user_id == uid && t.is_active)
            db.push_tokens ≠ [] := by
          intro h0; rw [h0] at hne; simp at hne
        have hmapne : (List.map (fun t => t.fcm_token)
            (List.filter (fun t => t.user_id == uid && t.is_active)
              db.push_tokens)).isEmpty = false := by
          cases hfilter : List.filter (fun t => t.user_id == uid && t.is_active)
              db.push_tokens with
          | nil => exact absurd hfilter hfilterne
          | cons a t => rfl
        have hmaplen : (List.map (fun t => t.fcm_token)
            (List.filter (fun t => t.user_id == uid && t.is_active)
              db.push_tokens)).length ≠ 0 := by
          cases hfilter : List.filter (fun t => t.user_id == uid && t.is_active)
              db.push_tokens with
          | nil => exact absurd hfilter hfilterne
          | cons a t => simp
        have hex : ∃ x ∈ db.push_tokens, x.user_id = uid ∧ x.is_active = true := by
          cases hfilter : List.filter (fun t => t.user_id == uid && t.is_active)
              db.push_tokens with
          | nil => exact absurd hfilter hfilterne
          | cons a t =>
              have ha : a ∈ List.filter (fun t => t.user_id == uid && t.is_active)
                  db.push_tokens := by
                rw [hfilter]; exact List.mem_cons_self a t
              have hpa := List.of_mem_filter ha
              have hmem := List.mem_of_mem_filter ha
              simp only [Bool.and_eq_true, beq_iff_eq] at hpa
              exact ⟨a, hmem, hpa.1, hpa.2⟩
        refine ⟨?_, rfl, ?_⟩
        · simp [hmapne, hmaplen]
          exact hex
        · simp [hmapne]
    · intro d hd hid
      simp only [Notif.send_to_user, hne, Bool.false_eq_true, if_false,
        Notif.send_push_notification] at hd
      obtain ⟨m, hm, hkey, rfl⟩ := upd_by_id_mem (fun x => x.notification_id)
        (fun x => { x with delivery_status := "sent", delivered_at := some now })
        nid _ d hd hid
      exact ⟨rfl, rfl⟩

/-- Evaluated instance of `notif_send_exception_semantics`: a database
exception `"boom"` after the send marks the single delivery row of the
fresh notification `failed` with reason `"boom"`. -/
theorem notif_send_exception_semantics_witness :
    (⟨1, 5, "failed", some "boom", none⟩ : Notif.Delivery) ∈
      (Notif.send_to_user dbOneToken 1 7 "t" "b" "other" "normal" none 100
        (Except.ok [true]) (some "boom")).1.deliveries
    ∧ (⟨1, 5, "failed", some "boom", none⟩ : Notif.Delivery).delivery_status
        = "failed"
    ∧ (⟨1, 5, "failed", some "boom", none⟩ : Notif.Delivery).failure_reason
        = some "boom" := by
  have h := notif_send_exception_semantics dbOneToken 1 7 "t" "b" "other"
    "normal" none 100 "boom" (by decide) (by decide)
  exact ⟨by decide, (h.1 (Except.ok [true])).2 _ (by decide) rfl⟩

/-- C3: when the FCM call returns the provider's per-token outcomes (one
Boolean per active token) without raising, the notification's final
status is `delivered` exactly when at least one token succeeded and
`failed` when none did, every delivery row of the notification is set to
`sent` with a delivered timestamp regardless of the per-token outcomes,
and the returned counts are the provider's. -/
theorem notif_send_success_semantics
    (db : Notif.NotifDB) (nid uid : Nat) (title body ntype prio : String)
    (payload : Option String) (now : Nat) (outcomes : List Bool)
    (hne : (db.push_tokens.filter
      (fun t => t.user_id == uid && t.is_active)).isEmpty = false)
    (hlen : outcomes.length = (db.push_tokens.filter
      (fun t => t.user_id == uid && t.is_active)).length) :
    (∀ n ∈ (Notif.send_to_user db nid uid title body ntype prio payload now
          (Except.ok outcomes) none).1.notifications,
        n.id = nid →
        n.status = (if 0 < outcomes.count true then "delivered" else "failed"))
    ∧ (∀ d ∈ (Notif.send_to_user db nid uid title body ntype prio payload now
          (Except.ok outcomes) none).1.deliveries,
        d.notification_id = nid →
        d.delivery_status = "sent" ∧ d.delivered_at = some now)
    ∧ (Notif.send_to_user db nid uid title body ntype prio payload now
          (Except.ok outcomes) none).2
        = (outcomes.count true, outcomes.count false) := by
  have hfilterne : List.filter (fun t => t.user_id == uid && t.is_active)
      db.push_tokens ≠ [] := by
    intro h0; rw [h0] at hne; simp at hne
  have hmapne : (List.map (fun t => t.fcm_token)
      (List.filter (fun t => t.user_id == uid && t.is_active)
        db.push_tokens)).isEmpty = false := by
    cases hfilter : List.filter (fun t => t.user_id == uid && t.is_active)
        db.push_tokens with
    | nil => exact absurd hfilter hfilterne
    | cons a t => rfl
  have hlen0 : outcomes.length ≠ 0 := by
    rw [hlen]
    cases hfilter : List.filter (fun t => t.user_id == uid && t.is_active)
        db.push_tokens with
    | nil => exact absurd hfilter hfilterne
    | cons a t => simp
  have hsum := count_bool outcomes
  have hstat : (if outcomes.count false = 0 then "delivered"
      else if outcomes.count true = 0 then "failed" else "delivered")
      = (if 0 < outcomes.count true then "delivered" else "failed") := by
    by_cases hf : outcomes.count false = 0
    · rw [if_pos hf, if_pos (by omega)]
    · rw [if_neg hf]
      by_cases hs : outcomes.count true = 0
      · rw [if_pos hs, if_neg (by omega)]
      · rw [if_neg hs, if_pos (by omega)]
  refine ⟨?_, ?_, ?_⟩
  · intro n hn hid
    simp only [Notif.send_to_user, hne, Bool.false_eq_true, if_false,
      Notif.send_push_notification] at hn
    obtain ⟨m, hm, hkey, rfl⟩ := upd_by_id_mem (fun x => x.id) _ nid _ n hn hid
    simp only [hmapne, Bool.false_eq_true, if_false]
    exact hstat
  · intro d hd hid
    simp only [Notif.send_to_user, hne, Bool.false_eq_true, if_false,
      Notif.send_push_notification] at hd
    obtain ⟨m, hm, hkey, rfl⟩ := upd_by_id_mem (fun x => x.notification_id)
      (fun x => { x with delivery_status := "sent", delivered_at := some now })
      nid _ d hd hid
    exact ⟨rfl, rfl⟩
  · simp only [Notif.send_to_user, hne, Bool.false_eq_true, if_false,
      Notif.send_push_notification, hmapne]

/-- Evaluated instance of `notif_send_success_semantics`: one active
token whose send succeeds yields counts `(1, 0)`. -/
theorem notif_send_success_semantics_witness :
    (Notif.send_to_user dbOneToken 1 7 "t" "b" "other" "normal" none 100
        (Except.ok [true]) none).2 = (1, 0) := by
  have h := notif_send_success_semantics dbOneToken 1 7 "t" "b" "other"
    "normal" none 100 [true] (by decide) (by decide)
  exact h.2.2.trans (by decide)

/-- Satellite-row counts only read the satellite tables, so changing the
`users` table alone never changes them. -/
theorem cnt_users_update (db : RoleTrig.DB) (us : List (Nat × String)) (v : Nat) :
    RoleTrig.cnt { db with users := us } v = RoleTrig.cnt db v := rfl

/-- Inserting the satellite row for a user with no satellite rows leaves
the user with exactly the rows the new role demands. -/
theorem cnt_insert_self (db : RoleTrig.DB) (u : Nat) (r : String)
    (h : RoleTrig.cnt db u = (0, 0, 0, 0)) :
    RoleTrig.cnt (RoleTrig.insertRoleRecord db u r) u
      = RoleTrig.expected (some r) := by
  simp only [RoleTrig.cnt, Prod.mk.injEq] at h
  obtain ⟨h1, h2, h3, h4⟩ := h
  unfold RoleTrig.insertRoleRecord RoleTrig.expected
  by_cases hp : r = "patient"
  · simp [hp, RoleTrig.cnt, List.count_append, h1, h2, h3, h4]
  · by_cases hd : r = "doctor"
    · simp [hp, hd, RoleTrig.cnt, List.count_append, h1, h2, h3, h4]
    · by_cases ha : r = "admin"
      · simp [hp, hd, ha, RoleTrig.cnt, List.count_append, h1, h2, h3, h4]
      · by_cases hph : r = "pharmacy"
        · simp [hp, hd, ha, hph, RoleTrig.cnt, List.countP_append,
            List.count_append, h1, h2, h3, h4]
        · simp [hp, hd, ha, hph, RoleTrig.cnt, h1, h2, h3, h4]

/-- Inserting a satellite row for user `u` never changes another user's
satellite-row counts. -/
theorem cnt_insert_other (db : RoleTrig.DB) (u : Nat) (r : String) (v : Nat)
    (hvu : v ≠ u) :
    RoleTrig.cnt (RoleTrig.insertRoleRecord db u r) v = RoleTrig.cnt db v := by
  unfold RoleTrig.insertRoleRecord
  split
  · simp [RoleTrig.cnt, List.count_append, List.count_singleton, hvu]
  · split
    · simp [RoleTrig.cnt, List.count_append, List.count_singleton, hvu]
    · split
      · simp [RoleTrig.cnt, List.count_append, List.count_singleton, hvu]
      · split
        · simp [RoleTrig.cnt, List.countP_append, hvu, Ne.symm hvu]
        · rfl

/-- Deleting the old-role satellite rows of a user whose counts matched
the old role leaves the user with no satellite rows. -/
theorem cnt_delete_self (db : RoleTrig.DB) (u : Nat) (r : String)
    (h : RoleTrig.cnt db u = RoleTrig.expected (some r)) :
    RoleTrig.cnt (RoleTrig.deleteRoleRecord db u r) u = (0, 0, 0, 0) := by
  simp only [RoleTrig.cnt, RoleTrig.expected, Prod.mk.injEq] at h
  obtain ⟨h1, h2, h3, h4⟩ := h
  have hnotmem : ∀ l : List Nat, u ∉ l.filter (fun v => v != u) := by
    intro l hu
    have := List.of_mem_filter hu
    simp at this
  have hcount : ∀ l : List Nat, (l.filter (fun v => v != u)).count u = 0 :=
    fun l => List.count_eq_zero.2 (hnotmem l)
  have hcountP : ∀ l : List (Nat × Option Nat),
      (l.filter (fun p => p.1 != u)).countP (fun p => p.1 == u) = 0 := by
    intro l
    refine List.countP_eq_zero.2 (fun p hp => ?_)
    have := List.of_mem_filter hp
    simp only [bne_iff_ne, ne_eq] at this
    simp [this]
  unfold RoleTrig.deleteRoleRecord
  by_cases hp : r = "patient"
  · simp only [hp] at h1 h2 h3 h4 ⊢
    simp [RoleTrig.cnt, hcount, h2, h3, h4]
  · by_cases hd : r = "doctor"
    · simp only [hp, hd] at h1 h2 h3 h4 ⊢
      simp [RoleTrig.cnt, hcount, h1, h3, h4]
    · by_cases hph : r = "pharmacy"
      · simp only [hp, hd, hph] at h1 h2 h3 h4 ⊢
        simp [RoleTrig.cnt, hcountP, h1, h2, h4]
      · by_cases ha : r = "admin"
        · simp only [hp, hd, hph, ha] at h1 h2 h3 h4 ⊢
          simp [RoleTrig.cnt, hcount, h1, h2, h3]
        · simp only [hp, hd, hph, ha] at h1 h2 h3 h4 ⊢
          simp [RoleTrig.cnt, h1, h2, h3, h4]

/-- Deleting user `u`'s satellite rows never changes another user's
satellite-row counts. -/
theorem cnt_delete_other (db : RoleTrig.DB) (u : Nat) (r : String) (v : Nat)
    (hvu : v ≠ u) :
    RoleTrig.cnt (RoleTrig.deleteRoleRecord db u r) v = RoleTrig.cnt db v := by
  have hcount : ∀ l : List Nat, (l.filter (fun x => x != u)).count v = l.count v := by
    intro l
    rw [List.count_filter]
    simp [hvu]
  have hcountP : ∀ l : List (Nat × Option Nat),
      (l.filter (fun p => p.1 != u)).countP (fun p => p.1 == v)
        = l.countP (fun p => p.1 == v) := by
    intro l
    rw [List.countP_filter]
    refine List.countP_congr (fun p _ => ?_)
    constructor
    · intro hb
      simp only [Bool.and_eq_true, beq_iff_eq] at hb
      simp [hb.1]
    · intro hb
      simp only [beq_iff_eq] at hb
      simp [hb, hvu, Ne.symm hvu]
  unfold RoleTrig.deleteRoleRecord
  split
  · simp [RoleTrig.cnt, hcount]
  · split
    · simp [RoleTrig.cnt, hcount]
    · split
      · simp [RoleTrig.cnt, hcountP]
      · split
        · simp [RoleTrig.cnt, hcount]
        · rfl

/-- The satellite insert never touches the `users` table. -/
theorem users_insertRoleRecord (db : RoleTrig.DB) (u : Nat) (r : String) :
    (RoleTrig.insertRoleRecord db u r).users = db.users := by
  unfold RoleTrig.insertRoleRecord
  split
  · rfl
  · split
    · rfl
    · split
      · rfl
      · split <;> rfl

/-- The satellite delete never touches the `users` table. -/
theorem users_deleteRoleRecord (db : RoleTrig.DB) (u : Nat) (r : String) :
    (RoleTrig.deleteRoleRecord db u r).users = db.users := by
  unfold RoleTrig.deleteRoleRecord
  split
  · rfl
  · split
    · rfl
    · split
      · rfl
      · split <;> rfl

/-- `roleOf` only reads the `users` table, so satellite inserts and
deletes preserve it. -/
theorem roleOf_satellite_ops (db : RoleTrig.DB) (u : Nat) (r : String) (x : Nat) :
    RoleTrig.roleOf (RoleTrig.insertRoleRecord db u r) x = RoleTrig.roleOf db x
    ∧ RoleTrig.roleOf (RoleTrig.deleteRoleRecord db u r) x
        = RoleTrig.roleOf db x := by
  unfold RoleTrig.roleOf
  rw [users_insertRoleRecord, users_deleteRoleRecord]
  exact ⟨rfl, rfl⟩

/-- Appending a fresh user row: the new user's role is the inserted one
and every other lookup is unchanged. -/
theorem roleOf_append_fresh (db : RoleTrig.DB) (u : Nat) (r : String)
    (hf : db.users.find? (fun p => p.1 == u) = none) (x : Nat) :
    RoleTrig.roleOf { db with users := db.users ++ [(u, r)] } x
      = if x = u then some r else RoleTrig.roleOf db x := by
  unfold RoleTrig.roleOf
  rw [List.find?_append]
  by_cases hxu : x = u
  · subst hxu
    rw [hf, if_pos rfl]
    simp
  · have hnone : List.find? (fun p => p.1 == x) [(u, r)] = none := by
      simp [Ne.symm hxu]
    rw [hnone, if_neg hxu, Option.or_none]

/-- The role-update predicate composed with the per-row update function
is the original predicate (the update preserves the key). -/
theorem setRole_pred_comp (u : Nat) (r : String) (x : Nat) :
    ((fun p : Nat × String => p.1 == x) ∘
      (fun p => if p.1 == u then (p.1, r) else p)) = fun p => p.1 == x := by
  funext p
  by_cases h : p.1 = u <;> simp [h]

/-- `UPDATE users SET role = :r WHERE id = :u` leaves every other user's
role unchanged. -/
theorem roleOf_setRole_other (db : RoleTrig.DB) (u : Nat) (r : String) (x : Nat)
    (hxu : x ≠ u) :
    RoleTrig.roleOf { db with users := db.users.map (fun p =>
      if p.1 == u then (p.1, r) else p) } x = RoleTrig.roleOf db x := by
  unfold RoleTrig.roleOf
  rw [List.find?_map, setRole_pred_comp]
  cases hfx : db.users.find? (fun p => p.1 == x) with
  | none => rfl
  | some p =>
      have hpx := List.find?_some hfx
      simp only [beq_iff_eq] at hpx
      simp [Option.map_map, Function.comp, hpx, hxu]

/-- `UPDATE users SET role = :r WHERE id = :u` sets the matched user's
role to `r`. -/
theorem roleOf_setRole_self (db : RoleTrig.DB) (u : Nat) (r : String)
    (p : Nat × String) (hf : db.users.find? (fun q => q.1 == u) = some p) :
    RoleTrig.roleOf { db with users := db.users.map (fun q =>
      if q.1 == u then (q.1, r) else q) } u = some r := by
  unfold RoleTrig.roleOf
  rw [List.find?_map, setRole_pred_comp, hf]
  have hpu := List.find?_some hf
  simp only [beq_iff_eq] at hpu
  simp [hpu]

/-- A user found by the primary-key lookup has the found role. -/
theorem roleOf_of_find (db : RoleTrig.DB) (u : Nat) (p : Nat × String)
    (hf : db.users.find? (fun q => q.1 == u) = some p) :
    RoleTrig.roleOf db u = some p.2 := by
  unfold RoleTrig.roleOf
  rw [hf]
  rfl

/-- With unique user ids, membership of `(u, r)` in the `users` table
determines `roleOf`. -/
theorem roleOf_of_mem (db : RoleTrig.DB)
    (hnd : (db.users.map (fun p => p.1)).Nodup) (u : Nat) (r : String)
    (hm : (u, r) ∈ db.users) : RoleTrig.roleOf db u = some r := by
  unfold RoleTrig.roleOf
  cases hf : db.users.find? (fun p => p.1 == u) with
  | none =>
      have := List.find?_eq_none.1 hf (u, r) hm
      simp at this
  | some p =>
      have hppred := List.find?_some hf
      simp only [beq_iff_eq] at hppred
      have hpmem := List.mem_of_find?_eq_some hf
      have hpe : p = (u, r) :=
        List.inj_on_of_nodup_map hnd hpmem hm (by simp [hppred])
      rw [hpe]
      rfl

/-- `createUser` (user INSERT plus the AFTER INSERT trigger) preserves
the role-satellite invariant. -/
theorem inv_createUser (db : RoleTrig.DB) (u : Nat) (r : String)
    (h : RoleTrig.Inv db) : RoleTrig.Inv (RoleTrig.createUser db u r) := by
  obtain ⟨hnd, hc⟩ := h
  unfold RoleTrig.createUser
  by_cases hex : (db.users.find? (fun p => p.1 == u)).isSome
  · rw [if_pos hex]; exact ⟨hnd, hc⟩
  · rw [if_neg hex]
    have hf : db.users.find? (fun p => p.1 == u) = none := by
      cases hfind : db.users.find? (fun p => p.1 == u) with
      | none => rfl
      | some p => rw [hfind] at hex; simp at hex
    unfold RoleTrig.Inv
    constructor
    · rw [users_insertRoleRecord]
      show ((db.users ++ [(u, r)]).map (fun p => p.1)).Nodup
      rw [List.map_append, List.nodup_append]
      refine ⟨hnd, List.nodup_singleton u, ?_⟩
      intro a ha hb
      rw [List.mem_singleton.1 hb] at ha
      obtain ⟨p, hp, hpa⟩ := List.mem_map.1 ha
      have := List.find?_eq_none.1 hf p hp
      simp only [beq_iff_eq] at this
      exact this hpa
    · intro v
      have hroleIns := (roleOf_satellite_ops
        { db with users := db.users ++ [(u, r)] } u r v).1
      rw [hroleIns, roleOf_append_fresh db u r hf v]
      by_cases hvu : v = u
      · rw [hvu, if_pos rfl]
        have hzero : RoleTrig.cnt { db with users := db.users ++ [(u, r)] } u
            = (0, 0, 0, 0) := by
          rw [cnt_users_update]
          have hrn : RoleTrig.roleOf db u = none := by
            unfold RoleTrig.roleOf; rw [hf]; rfl
          have := hc u
          rw [hrn] at this
          exact this
        exact cnt_insert_self _ u r hzero
      · rw [if_neg hvu, cnt_insert_other _ u r v hvu, cnt_users_update]
        exact hc v

/-- `updateRole` (role UPDATE plus the AFTER UPDATE trigger) preserves
the role-satellite invariant. -/
theorem inv_updateRole (db : RoleTrig.DB) (u : Nat) (r : String)
    (h : RoleTrig.Inv db) : RoleTrig.Inv (RoleTrig.updateRole db u r) := by
  obtain ⟨hnd, hc⟩ := h
  unfold RoleTrig.updateRole
  cases hf : db.users.find? (fun p => p.1 == u) with
  | none => exact ⟨hnd, hc⟩
  | some p =>
      have hpu := List.find?_some hf
      simp only [beq_iff_eq] at hpu
      have hnd1 : (({ db with users := db.users.map (fun q =>
          if q.1 == u then (q.1, r) else q) } : RoleTrig.DB).users.map
            (fun p => p.1)).Nodup := by
        show ((db.users.map fun q => if q.1 == u then (q.1, r) else q).map
          (fun p => p.1)).Nodup
        rw [List.map_map]
        have hfst : ((fun p : Nat × String => p.1) ∘
            (fun q => if q.1 == u then (q.1, r) else q)) = fun p => p.1 := by
          funext q; by_cases hq : q.1 = u <;> simp [hq]
        rw [hfst]; exact hnd
      have hroleu := roleOf_of_find db u p hf
      dsimp only
      by_cases heq : p.2 = r
      · rw [if_pos heq]
        refine ⟨hnd1, fun v => ?_⟩
        rw [cnt_users_update]
        by_cases hvu : v = u
        · subst hvu
          rw [roleOf_setRole_self db v r p hf]
          have := hc v
          rw [hroleu, heq] at this
          exact this
        · rw [roleOf_setRole_other db u r v hvu]
          exact hc v
      · rw [if_neg heq]
        unfold RoleTrig.Inv
        constructor
        · rw [users_insertRoleRecord, users_deleteRoleRecord]
          exact hnd1
        · intro v
          have hro1 := (roleOf_satellite_ops
            (RoleTrig.deleteRoleRecord { db with users := db.users.map (fun q =>
              if q.1 == u then (q.1, r) else q) } u p.2) u r v).1
          have hro2 := (roleOf_satellite_ops
            { db with users := db.users.map (fun q =>
              if q.1 == u then (q.1, r) else q) } u p.2 v).2
          rw [hro1, hro2]
          by_cases hvu : v = u
          · subst hvu
            rw [roleOf_setRole_self db v r p hf]
            have h1 : RoleTrig.cnt { db with users := db.users.map (fun q =>
                if q.1 == v then (q.1, r) else q) } v
                = RoleTrig.expected (some p.2) := by
              rw [cnt_users_update]
              have := hc v
              rw [hroleu] at this
              exact this
            have h2 := cnt_delete_self _ v p.2 h1
            exact cnt_insert_self _ v r h2
          · rw [roleOf_setRole_other db u r v hvu,
              cnt_insert_other _ u r v hvu, cnt_delete_other _ u p.2 v hvu,
              cnt_users_update]
            exact hc v

/-- The invariant holds of the empty database. -/
theorem inv_init : RoleTrig.Inv RoleTrig.initDB :=
  ⟨List.nodup_nil, fun _ => rfl⟩

/-- The invariant holds after any operation sequence from the empty
database. -/
theorem inv_run (ops : List RoleTrig.Op) : RoleTrig.Inv (RoleTrig.run ops) := by
  suffices h : ∀ (l : List RoleTrig.Op) (db : RoleTrig.DB),
      RoleTrig.Inv db → RoleTrig.Inv (List.foldl RoleTrig.step db l) by
    exact h ops RoleTrig.initDB inv_init
  intro l
  induction l with
  | nil => intro db h; exact h
  | cons op rest ih =>
      intro db h
      refine ih _ ?_
      cases op with
      | create u r => exact inv_createUser db u r h
      | setRole u r => exact inv_updateRole db u r h

/-- C1: after any sequence of user creations and role updates from the
empty database, every user's satellite-row counts are exactly those the
current role demands (one row in the matching table for the four known
roles — hence at most one satellite row overall, matching the role);
moreover a same-role update leaves every satellite table unchanged, a
creation of a fresh user leaves the user with exactly the new role's
satellite row, and a role update of an existing user leaves the user
with exactly the new role's satellite row. -/
theorem role_satellite_consistency :
    (∀ ops u r, (u, r) ∈ (RoleTrig.run ops).users →
        RoleTrig.cnt (RoleTrig.run ops) u = RoleTrig.expected (some r))
    ∧ (∀ db u r, RoleTrig.roleOf db u = some r →
        (RoleTrig.updateRole db u r).patients = db.patients
        ∧ (RoleTrig.updateRole db u r).doctors = db.doctors
        ∧ (RoleTrig.updateRole db u r).pharmacy_staff = db.pharmacy_staff
        ∧ (RoleTrig.updateRole db u r).admins = db.admins)
    ∧ (∀ ops u r, RoleTrig.roleOf (RoleTrig.run ops) u = none →
        RoleTrig.cnt (RoleTrig.createUser (RoleTrig.run ops) u r) u
          = RoleTrig.expected (some r))
    ∧ (∀ ops u oldr newr, RoleTrig.roleOf (RoleTrig.run ops) u = some oldr →
        RoleTrig.cnt (RoleTrig.updateRole (RoleTrig.run ops) u newr) u
          = RoleTrig.expected (some newr)) := by
  refine ⟨?_, ?_, ?_, ?_⟩
  · intro ops u r hm
    obtain ⟨hnd, hc⟩ := inv_run ops
    have := hc u
    rw [roleOf_of_mem _ hnd u r hm] at this
    exact this
  · intro db u r hrole
    unfold RoleTrig.updateRole
    unfold RoleTrig.roleOf at hrole
    cases hf : db.users.find? (fun p => p.1 == u) with
    | none => rw [hf] at hrole; simp at hrole
    | some p =>
        rw [hf] at hrole
        simp only [Option.map_some', Option.some.injEq] at hrole
        dsimp only
        rw [if_pos hrole]
        exact ⟨rfl, rfl, rfl, rfl⟩
  · intro ops u r hnone
    obtain ⟨hnd, hc⟩ := inv_run ops
    have hf : (RoleTrig.run ops).users.find? (fun p => p.1 == u) = none := by
      unfold RoleTrig.roleOf at hnone
      cases hfind : (RoleTrig.run ops).users.find? (fun p => p.1 == u) with
      | none => rfl
      | some p => rw [hfind] at hnone; simp at hnone
    unfold RoleTrig.createUser
    rw [if_neg (by rw [hf]; simp)]
    have hzero : RoleTrig.cnt { RoleTrig.run ops with
        users := (RoleTrig.run ops).users ++ [(u, r)] } u = (0, 0, 0, 0) := by
      rw [cnt_users_update]
      have := hc u
      rw [hnone] at this
      exact this
    exact cnt_insert_self _ u r hzero
  · intro ops u oldr newr hrole
    obtain ⟨hnd, hc⟩ := inv_run ops
    unfold RoleTrig.updateRole
    unfold RoleTrig.roleOf at hrole
    cases hf : (RoleTrig.run ops).users.find? (fun p => p.1 == u) with
    | none => rw [hf] at hrole; simp at hrole
    | some p =>
        rw [hf] at hrole
        simp only [Option.map_some', Option.some.injEq] at hrole
        dsimp only
        have hroleu := roleOf_of_find (RoleTrig.run ops) u p hf
        by_cases heq : p.2 = newr
        · rw [if_pos heq, cnt_users_update]
          have := hc u
          rw [hroleu, heq] at this
          exact this
        · rw [if_neg heq]
          have h1 : RoleTrig.cnt { RoleTrig.run ops with
              users := (RoleTrig.run ops).users.map (fun q =>
                if q.1 == u then (q.1, newr) else q) } u
              = RoleTrig.expected (some p.2) := by
            rw [cnt_users_update]
            have := hc u
            rw [hroleu] at this
            exact this
          have h2 := cnt_delete_self _ u p.2 h1
          exact cnt_insert_self _ u newr h2

/-- Evaluated instance of `role_satellite_consistency` on the sample
operation sequence (create user 1 as patient, change to doctor): the
counts match the doctor role, a same-role update is a satellite no-op,
and fresh creations / further role changes land in the right table. -/
theorem role_satellite_consistency_witness :
    RoleTrig.cnt (RoleTrig.run sampleOps) 1 = RoleTrig.expected (some "doctor")
    ∧ (RoleTrig.updateRole (RoleTrig.run sampleOps) 1 "doctor").patients
        = (RoleTrig.run sampleOps).patients
    ∧ RoleTrig.cnt (RoleTrig.createUser (RoleTrig.run sampleOps) 2 "pharmacy") 2
        = RoleTrig.expected (some "pharmacy")
    ∧ RoleTrig.cnt (RoleTrig.updateRole (RoleTrig.run sampleOps) 1 "admin") 1
        = RoleTrig.expected (some "admin") :=
  ⟨role_satellite_consistency.1 sampleOps 1 "doctor" (by decide),
   (role_satellite_consistency.2.1 (RoleTrig.run sampleOps) 1 "doctor"
     (by decide)).1,
   role_satellite_consistency.2.2.1 sampleOps 2 "pharmacy" (by decide),
   role_satellite_consistency.2.2.2 sampleOps 1 "doctor" "admin" (by decide)⟩

end Medico24
